import Mathlib

/-!
# Verification of the tinykit SQL-generation core

Shallow embedding of the query builder, value escaping, datasource emitter and
pipe parameter-template compiler of the tinykit repository, together with
theorems settling the frozen claims about them.

Sources embedded:
* `escapeValue`, the query builder (`query`, `where`, `and`, `or`, `raw`,
  `with`, `union`, `build`, …)  — `src/query.ts` (provided as
  `src/unnamed/part_006`, lines 503–1254);
* `generateDatasourceFile` — datasource emitter (same part, lines 252–301);
* `mapParameterToTemplate`, `getTinybirdTemplateType`, `formatDefaultValue`
  — pipe template compiler (same part, lines 119–224);
* `addConditionalParameters` — `src/pipe.ts`, lines 122–136.

Conventions: JavaScript values reaching the escaping/default-formatting code
are modelled by the inductive `JsValue` (numbers are modelled as integers, and
`String(n)` as their decimal rendering); `undefined` object fields are
modelled with `Option`; JavaScript string truthiness (`if (s)`) is modelled by
`strTruthy`; a thrown `Error` is modelled with `Except String`.
-/

/-- A JavaScript runtime value of the kinds relevant to the embedded code:
`null`, a number (modelled as an integer), a boolean, a string, a `Date`
(carried by its ISO rendering), or any other kind (carried by its `typeof`
tag, e.g. `"object"`, `"undefined"`, `"function"`). -/
inductive JsValue where
  | vNull : JsValue
  | vNum (n : Int) : JsValue
  | vBool (b : Bool) : JsValue
  | vStr (s : String) : JsValue
  | vDate (iso : String) : JsValue
  | vOther (typeofTag : String) : JsValue
  deriving Repr, DecidableEq

/-- The `typeof` tag of a `JsValue` as the source's error message prints it
(`typeof null` is `"object"` in JavaScript). -/
def jsTypeof : JsValue → String
  | .vNull => "object"
  | .vNum _ => "number"
  | .vBool _ => "boolean"
  | .vStr _ => "string"
  | .vDate _ => "object"
  | .vOther t => t

/-- JavaScript `String(v)` for the value kinds of `JsValue`. -/
def jsString : JsValue → String
  | .vNull => "null"
  | .vNum n => toString n
  | .vBool b => if b then "true" else "false"
  | .vStr s => s
  | .vDate iso => iso
  | .vOther t => t

/-- JavaScript truthiness of a `JsValue`. -/
def jsTruthy : JsValue → Bool
  | .vNull => false
  | .vNum n => !(n == 0)
  | .vBool b => b
  | .vStr s => !(s == "")
  | .vDate _ => true
  | .vOther t => !(t == "undefined")

/-- JavaScript truthiness of an optional string field: `undefined` and the
empty string are falsy, every other string is truthy (`if (state.rawSql)`,
`if (dataSource.partitionBy)`, …). -/
def strTruthy : Option String → Bool
  | none => false
  | some s => !(s == "")

/-- Doubles every single quote in a character list (`value.replace(/'/g, "''")`). -/
def doubleQuotes : List Char → List Char
  | [] => []
  | c :: rest =>
    if c == '\x27' then '\x27' :: '\x27' :: doubleQuotes rest
    else c :: doubleQuotes rest

/-- Whether a string contains one of `( ) { }` (the `/[(){}]/` test of the
source's escaping heuristic). -/
def hasSqlExprChar (s : String) : Bool :=
  s.data.any fun c => (c == '(') || (c == ')') || (c == '\x7b') || (c == '\x7d')

/-- `escapeValue` of `src/query.ts` (part_006 lines 1240–1254): `null` maps to
`NULL`, numbers to their decimal text, booleans to `1`/`0`; a string
containing one of `( ) { }` is returned unchanged, any other string is
single-quoted with internal quotes doubled; every other value kind throws. -/
def escapeValue : JsValue → Except String String
  | .vNull => .ok "NULL"
  | .vNum n => .ok (toString n)
  | .vBool b => .ok (if b then "1" else "0")
  | .vStr s =>
    if hasSqlExprChar s then .ok s
    else .ok ("\x27" ++ String.mk (doubleQuotes s.data) ++ "\x27")
  | v => .error ("Unsupported value type for escaping: " ++ jsTypeof v)

/-- The value kinds `escapeValue` supports without throwing
(null / number / boolean / string). -/
def escapeSupported : JsValue → Bool
  | .vNull => true
  | .vNum _ => true
  | .vBool _ => true
  | .vStr _ => true
  | .vDate _ => false
  | .vOther _ => false

/-- The non-recursive fields of the builder's `QueryState` (part_006 lines
820–858).  The recursive `unions` field lives in `QState` so that the state
type can mention itself.  Field defaults mirror the initial state created by
`query(schema)` (the schema itself carries no rendering information and is
not modelled). -/
structure QCore where
  selectL : List String := []
  fromT : Option String := none
  joins : List String := []
  whereL : List String := []
  groupByL : List String := []
  havingL : List String := []
  orderByL : List String := []
  limitN : Option Int := none
  offsetN : Option Int := none
  ctes : List (String × String) := []
  rawSql : Option String := none
  deriving Repr, DecidableEq

/-- The full builder state: the core fields plus the list of
`(setOperator, otherBuilder)` pairs recorded by `union`.  The other builder
is modelled by its state. -/
inductive QState where
  | mk (core : QCore) (unions : List (String × QState)) : QState

/-- The core fields of a builder state. -/
def QState.core : QState → QCore
  | .mk c _ => c

/-- The recorded union pairs of a builder state. -/
def QState.unions : QState → List (String × QState)
  | .mk _ us => us

/-- The state created by the `query(schema)` factory (part_006 lines 846–858):
every list empty, every optional field unset. -/
def initQuery : QState := .mk {} []

/-- The union-free part of `build()` (part_006 lines 1011–1068): the WITH
clause, the newline-joined clause parts in their fixed order, then the
already-rendered union blocks. -/
def buildCore (c : QCore) (unionStrs : List String) : String :=
  let withClause :=
    if c.ctes.isEmpty then ""
    else "WITH " ++
      String.intercalate ",\n" (c.ctes.map fun cte => cte.1 ++ " AS (" ++ cte.2 ++ ")") ++ "\n"
  let parts : List String :=
    (if c.selectL.isEmpty then ["SELECT *"]
     else ["SELECT " ++ String.intercalate ", " c.selectL])
    ++ (match c.fromT with | some f => ["FROM " ++ f] | none => [])
    ++ (if c.joins.isEmpty then [] else [String.intercalate "\n" c.joins])
    ++ (if c.whereL.isEmpty then [] else ["WHERE " ++ String.intercalate " " c.whereL])
    ++ (if c.groupByL.isEmpty then [] else ["GROUP BY " ++ String.intercalate ", " c.groupByL])
    ++ (if c.havingL.isEmpty then [] else ["HAVING " ++ String.intercalate " AND " c.havingL])
    ++ (if c.orderByL.isEmpty then [] else ["ORDER BY " ++ String.intercalate ", " c.orderByL])
    ++ (match c.limitN with | some n => ["LIMIT " ++ toString n] | none => [])
    ++ (match c.offsetN with | some n => ["OFFSET " ++ toString n] | none => [])
  let mainSql := String.intercalate "\n" parts
  let mainSql :=
    if unionStrs.isEmpty then mainSql
    else mainSql ++ "\n" ++ String.intercalate "\n" unionStrs
  withClause ++ mainSql

mutual
/-- `build()` (part_006 lines 1006–1069).  When the raw-SQL override is a
truthy (non-empty) string it is returned verbatim before anything else is
assembled; otherwise the clause parts are assembled by `buildCore`. -/
def build : QState → String
  | .mk c us =>
    if strTruthy c.rawSql then c.rawSql.getD "" else buildCore c (buildUnions us)

/-- Renders the recorded union pairs in insertion order, each as
`OPERATOR\n<otherSQL>` (part_006 lines 1061–1066). -/
def buildUnions : List (String × QState) → List String
  | [] => []
  | (t, q) :: rest => (t ++ "\n" ++ build q) :: buildUnions rest
end

/-- A SQL operator together with its right-hand value (`{ op, value }`). -/
structure Operator where
  op : String
  value : JsValue
  deriving Repr, DecidableEq

/-- The argument forms accepted by `where`/`and`/`or`: either a single raw
condition string, or a `(column, operator)` pair. -/
inductive WhereArgs where
  | raw (condition : String)
  | colOp (column : String) (operator : Operator)
  deriving Repr, DecidableEq

/-- The condition string computed at the top of `where`/`and`/`or`
(part_006 lines 883–889): the raw string itself, or
`column op escapeValue(value)` (the escaping may throw). -/
def whereCondStr : WhereArgs → Except String String
  | .raw c => .ok c
  | .colOp col o => do
    let e ← escapeValue o.value
    pure (col ++ " " ++ o.op ++ " " ++ e)

/-- `where(...args)` (part_006 lines 882–893): pushes the condition bare when
the WHERE list is empty and prefixed with `AND ` otherwise. -/
def whereOp (args : WhereArgs) : QState → Except String QState
  | .mk c us => do
    let condStr ← whereCondStr args
    pure (.mk { c with whereL :=
      c.whereL ++ [if c.whereL.isEmpty then condStr else "AND " ++ condStr] } us)

/-- `and(...args)` (part_006 lines 895–906): always pushes `AND condition`. -/
def andOp (args : WhereArgs) : QState → Except String QState
  | .mk c us => do
    let condStr ← whereCondStr args
    pure (.mk { c with whereL := c.whereL ++ ["AND " ++ condStr] } us)

/-- `or(...args)` (part_006 lines 908–919): always pushes `OR condition`. -/
def orOp (args : WhereArgs) : QState → Except String QState
  | .mk c us => do
    let condStr ← whereCondStr args
    pure (.mk { c with whereL := c.whereL ++ ["OR " ++ condStr] } us)

/-- `select(...columns)` / `selectRaw(sql)` (part_006 lines 861–869):
cumulative append to the projection list. -/
def selectOp (columns : List String) : QState → QState
  | .mk c us => .mk { c with selectL := c.selectL ++ columns } us

/-- `from(table)` (part_006 lines 877–880): overwrites the single FROM target. -/
def fromOp (table : String) : QState → QState
  | .mk c us => .mk { c with fromT := some table } us

/-- `with(alias, query)` for a builder argument (part_006 lines 871–875): the
other builder is rendered eagerly at call time and the pair
`(alias, sql)` is appended to the CTE list. -/
def withOp (cteAlias : String) (sub : QState) : QState → QState
  | .mk c us => .mk { c with ctes := c.ctes ++ [(cteAlias, build sub)] } us

/-- `with(alias, query)` for a string argument (part_006 lines 871–875). -/
def withStrOp (cteAlias : String) (sql : String) : QState → QState
  | .mk c us => .mk { c with ctes := c.ctes ++ [(cteAlias, sql)] } us

/-- `join(table, condition, type)` (part_006 lines 921–924); the source
defaults `type` to `'INNER'`. -/
def joinOp (table condition type : String) : QState → QState
  | .mk c us => .mk { c with joins := c.joins ++ [type ++ " JOIN " ++ table ++ " ON " ++ condition] } us

/-- `groupBy(...columns)` (part_006 lines 926–929). -/
def groupByOp (columns : List String) : QState → QState
  | .mk c us => .mk { c with groupByL := c.groupByL ++ columns } us

/-- `having(condition)` (part_006 lines 931–934). -/
def havingOp (condition : String) : QState → QState
  | .mk c us => .mk { c with havingL := c.havingL ++ [condition] } us

/-- `union(query, type)` (part_006 lines 936–939); the source defaults `type`
to `'UNION ALL'`.  The other builder is recorded (modelled by its state). -/
def unionOp (other : QState) (type : String) : QState → QState
  | .mk c us => .mk c (us ++ [(type, other)])

/-- `subquery(alias, query)` (part_006 lines 957–961): renders the other
builder and installs `(sql) AS alias` as the FROM target. -/
def subqueryOp (subAlias : String) (other : QState) : QState → QState
  | .mk c us => .mk { c with fromT := some ("(" ++ build other ++ ") AS " ++ subAlias) } us

/-- `existsSubquery(query)` (part_006 lines 963–965): pure string generator. -/
def existsSubquery (other : QState) : String :=
  "EXISTS (" ++ build other ++ ")"

/-- `notExistsSubquery(query)` (part_006 lines 967–969). -/
def notExistsSubquery (other : QState) : String :=
  "NOT EXISTS (" ++ build other ++ ")"

/-- `inSubquery(column, query)` (part_006 lines 971–973). -/
def inSubquery (column : String) (other : QState) : String :=
  column ++ " IN (" ++ build other ++ ")"

/-- `notInSubquery(column, query)` (part_006 lines 975–977). -/
def notInSubquery (column : String) (other : QState) : String :=
  column ++ " NOT IN (" ++ build other ++ ")"

/-- `orderBy(...columns)` (part_006 lines 979–982). -/
def orderByOp (columns : List String) : QState → QState
  | .mk c us => .mk { c with orderByL := c.orderByL ++ columns } us

/-- `limit(limit)` (part_006 lines 984–987): last call wins. -/
def limitOp (n : Int) : QState → QState
  | .mk c us => .mk { c with limitN := some n } us

/-- `offset(offset)` (part_006 lines 989–992): last call wins. -/
def offsetOp (n : Int) : QState → QState
  | .mk c us => .mk { c with offsetN := some n } us

/-- `if(condition, chain)` (part_006 lines 994–999). -/
def ifOp (condition : Bool) (chain : QState → QState) (s : QState) : QState :=
  if condition then chain s else s

/-- `raw(sql)` (part_006 lines 1001–1004): installs the raw-SQL override
(a later call overwrites the earlier one). -/
def rawOp (sql : String) : QState → QState
  | .mk c us => .mk { c with rawSql := some sql } us

/-- One `build()` call, as observed by the caller: the builder's state
afterwards, and the returned text.  The source `build()` (part_006 lines
1006–1069) only reads `state`, so the state component is the input state. -/
def buildCall (s : QState) : QState × String :=
  (s, build s)

/-- One column of a datasource schema, as consumed by the emitter
(`name`, SQL type, optional JSON path, optional comment). -/
structure ColumnDef where
  name : String
  type : String
  jsonPath : Option String := none
  comment : Option String := none
  deriving Repr, DecidableEq

/-- A datasource configuration as consumed by `generateDatasourceFile`
(part_006 lines 252–301).  `schema` carries the columns in the object's
insertion order (`Object.values(dataSource.schema)`). -/
structure DataSourceConfig where
  name : String := ""
  version : Option Nat := none
  schema : List ColumnDef := []
  engine : String := ""
  sortingKey : Option (List String) := none
  partitionBy : Option String := none
  ttl : Option String := none
  deriving Repr, DecidableEq

/-- JavaScript truthiness of the optional numeric `version` field
(`if (dataSource.version)`): `undefined` and `0` are falsy. -/
def numTruthy : Option Nat → Bool
  | none => false
  | some n => !(n == 0)

/-- The schema lines of the datasource emitter (part_006 lines 267–278): one
line per column, `` `name` TYPE `json:path` `` with the path defaulting to
`$.name` (the `columnDef.jsonPath || ...` truthiness default), a trailing
comma on every line but the last, and an indented `# comment` line after a
column whose comment is truthy. -/
def columnLine (c : ColumnDef) : String :=
  let jsonPath := if strTruthy c.jsonPath then c.jsonPath.getD "" else "$." ++ c.name
  "    `" ++ c.name ++ "` " ++ c.type ++ " `json:" ++ jsonPath ++ "`"

/-- The lines pushed for a column list, threading whether each column is the
last one (`idx === columns.length - 1`). -/
def columnLines : List ColumnDef → List String
  | [] => []
  | [c] =>
    [columnLine c] ++ (if strTruthy c.comment then ["    # " ++ c.comment.getD ""] else [])
  | c :: rest =>
    ([columnLine c ++ ","] ++ (if strTruthy c.comment then ["    # " ++ c.comment.getD ""] else []))
      ++ columnLines rest

/-- The `lines` array assembled by `generateDatasourceFile` (part_006 lines
252–298): optional `VERSION n` header, `SCHEMA >` with the column lines, a
blank line, `ENGINE "kind"`, then one optional directive line each for a
non-empty `sortingKey` (comma-joined), a truthy `partitionBy` and a truthy
`ttl`. -/
def generateDatasourceLines (d : DataSourceConfig) : List String :=
  (if numTruthy d.version then ["VERSION " ++ toString (d.version.getD 0), ""] else [])
  ++ ["SCHEMA >"]
  ++ columnLines d.schema
  ++ [""]
  ++ ["ENGINE \"" ++ d.engine ++ "\""]
  ++ (match d.sortingKey with
      | some ks => if 0 < ks.length then
          ["ENGINE_SORTING_KEY \"" ++ String.intercalate "," ks ++ "\""] else []
      | none => [])
  ++ (if strTruthy d.partitionBy then
        ["ENGINE_PARTITION_KEY \"" ++ d.partitionBy.getD "" ++ "\""] else [])
  ++ (if strTruthy d.ttl then
        ["ENGINE_TTL \"" ++ d.ttl.getD "" ++ "\""] else [])

/-- `generateDatasourceFile` (part_006 lines 252–301): the lines joined by
newlines with a trailing newline. -/
def generateDatasourceFile (d : DataSourceConfig) : String :=
  String.intercalate "\n" (generateDatasourceLines d) ++ "\n"

/-- A pipe query parameter as consumed by the template compiler: SQL type
string, optional `required` flag, optional default value (`none` models an
absent — `undefined` — default; `some .vNull` models an explicit `null`
default). -/
structure PParam where
  type : String := "String"
  required : Option Bool := none
  default : Option JsValue := none
  deriving Repr, DecidableEq

/-- Recursion core of `getTinybirdTemplateType` (part_006 lines 138–196); the
fuel bounds the `Nullable(...)` unwrapping recursion (the source recurses on
a strictly shorter string, so `length` fuel is always enough). -/
def tinybirdTemplateTypeAux : Nat → String → String
  | fuel, t =>
    if t == "String" then "String"
    else if t == "Int8" || t == "Int16" || t == "Int32" || t == "Int64" then "Int64"
    else if t == "UInt8" || t == "UInt16" || t == "UInt32" || t == "UInt64" then "UInt64"
    else if t == "Float32" || t == "Float64" then "Float64"
    else if t == "DateTime" || t == "DateTime64" then "DateTime"
    else if t == "Date" then "Date"
    else if t == "Boolean" then "Boolean"
    else if t == "UUID" || t == "JSON" || t == "IPv4" || t == "IPv6" then "String"
    else if "Array(".isPrefixOf t || "Map(".isPrefixOf t || "Tuple(".isPrefixOf t
        || "Nested(".isPrefixOf t || "LowCardinality(".isPrefixOf t then "String"
    else if "Nullable(".isPrefixOf t then
      match fuel with
      | 0 => "String"
      | fuel' + 1 => tinybirdTemplateTypeAux fuel' ((t.drop 9).dropRight 1)
    else "String"

/-- `getTinybirdTemplateType` (part_006 lines 138–196): maps SQL types to the
placeholder type names of the template syntax. -/
def getTinybirdTemplateType (t : String) : String :=
  tinybirdTemplateTypeAux t.length t

/-- `formatDefaultValue` (part_006 lines 199–224): `null`/`undefined` become
the literal `null`; string-like types are single-quoted via `String(v)`
(date-like types quoting `toISOString()` for `Date` instances); `Boolean`
renders `true`/`false` by the value's truthiness; anything else renders
`String(v)` bare. -/
def formatDefaultValue (dv : Option JsValue) (sqlType : String) : String :=
  match dv with
  | none => "null"
  | some .vNull => "null"
  | some v =>
    if sqlType == "String" || sqlType == "UUID" || sqlType == "IPv4"
        || sqlType == "IPv6" || sqlType == "JSON" then
      "\x27" ++ jsString v ++ "\x27"
    else if sqlType == "DateTime" || sqlType == "DateTime64" || sqlType == "Date" then
      match v with
      | .vDate iso => "\x27" ++ iso ++ "\x27"
      | w => "\x27" ++ jsString w ++ "\x27"
    else if sqlType == "Boolean" then
      if jsTruthy v then "true" else "false"
    else jsString v

/-- `mapParameterToTemplate` (part_006 lines 119–135): a required parameter
(`required === true`) renders `{{ TYPE(name, required=True) }}`; a parameter
with a present default (`default !== undefined`, which includes an explicit
`null`) renders `{{ TYPE(name, formattedDefault) }}`; otherwise the bare
token `{{ TYPE(name) }}`. -/
def mapParameterToTemplate (name : String) (p : PParam) : String :=
  let isRequired := p.required == some true
  let hasDefault := !(p.default == none)
  let tinybirdType := getTinybirdTemplateType p.type
  if isRequired then
    "\x7b\x7b " ++ tinybirdType ++ "(" ++ name ++ ", required=True) \x7d\x7d"
  else if hasDefault then
    "\x7b\x7b " ++ tinybirdType ++ "(" ++ name ++ ", "
      ++ formatDefaultValue p.default p.type ++ ") \x7d\x7d"
  else
    "\x7b\x7b " ++ tinybirdType ++ "(" ++ name ++ ") \x7d\x7d"

/-- Boolean prefix test on character lists (used by the regex model). -/
def isPre : List Char → List Char → Bool
  | [], _ => true
  | _ :: _, [] => false
  | a :: as, b :: bs => (a == b) && isPre as bs

/-- The lazy-gap search of the JavaScript regex `.*?pat`: finds the first
occurrence of `pat` reachable through a gap of non-newline characters
(`.` does not match a newline), returning the gap and the remainder after
the occurrence.  This is the backtracking regex engine's behaviour: it
prefers the earliest occurrence, and any later occurrence it could backtrack
to would see a strict subset of the remaining input, so the earliest
reachable occurrence followed by the earliest subsequent match is the unique
overall result. -/
def findLazy (pat : List Char) : List Char → Option (List Char × List Char)
  | [] => if isPre pat [] then some ([], []) else none
  | c :: rest =>
    if isPre pat (c :: rest) then some ([], (c :: rest).drop pat.length)
    else if c == '\n' then none
    else (findLazy pat rest).map fun gr => (c :: gr.1, gr.2)

/-- Matching of `/{{.*?key.*?}}/` at a position directly after an opening
`{{`: a lazy gap up to `key`, then a lazy gap up to the closing `}}`.
Returns the matched text after the `{{` (including the `}}`) and the
remaining input after the match. -/
def matchToken (key : List Char) (s : List Char) : Option (List Char × List Char) :=
  (findLazy key s).bind fun g1r1 =>
    (findLazy ['\x7d', '\x7d'] g1r1.2).map fun g2r2 =>
      (g1r1.1 ++ key ++ g2r2.1 ++ ['\x7d', '\x7d'], g2r2.2)

/-- One pass of `sql.replace(/{{.*?key.*?}}/g, m => pre ++ m ++ post)`: scan
left to right; at every position where `{{` begins a full match, emit the
wrapped match and continue after it (the `g` flag continues at the match
end); otherwise keep the character.  The fuel only bounds the recursion
(input length is always enough, see `scanRepl_fuel_add`). -/
def scanRepl (key wrapL wrapR : List Char) : Nat → List Char → List Char
  | 0, s => s
  | _ + 1, [] => []
  | fuel + 1, c :: rest =>
    if c == '\x7b' && isPre ['\x7b'] rest then
      match matchToken key rest.tail with
      | some (mid, r) =>
        (wrapL ++ ('\x7b' :: '\x7b' :: mid) ++ wrapR) ++ scanRepl key wrapL wrapR fuel r
      | none => c :: scanRepl key wrapL wrapR fuel rest
    else c :: scanRepl key wrapL wrapR fuel rest

/-- The replacement `sql.replace(/{{.*?${key}.*?}}/g, m => `${condition} ${m}
${endCondition}`)` of `addConditionalParameters` (`src/pipe.ts` lines
125–131), with `condition = {% if defined(key) %}` and
`endCondition = {% end %}`. -/
def regexWrapAll (key : String) (sql : String) : String :=
  String.mk (scanRepl key.data
    ("\x7b% if defined(" ++ key ++ ") %\x7d ").data
    (" \x7b% end %\x7d").data
    sql.data.length sql.data)

/-- `addConditionalParameters(sql, params)` (`src/pipe.ts` lines 122–136):
for every configured parameter, in insertion order, whose `required` flag is
not `true` and whose runtime value is defined (`params[key] !== undefined`,
given by `definedP`), every regex match of `/{{.*?key.*?}}/g` in the
accumulated SQL is wrapped in `{% if defined(key) %} … {% end %}`. -/
def addConditionalParameters (parameters : List (String × PParam))
    (definedP : String → Bool) (sql : String) : String :=
  parameters.foldl
    (fun acc kv =>
      if !(kv.2.required == some true) && definedP kv.1 then regexWrapAll kv.1 acc
      else acc)
    sql

/-- A store of builder states: JavaScript builder objects are references into
a heap, modelled as positions in a list.  This makes aliasing statable: two
distinct positions are two distinct builders. -/
abbrev Store := List QState

/-- The builder state at position `i` of a store. -/
def getQ (st : Store) (i : Nat) : QState :=
  st.getD i initQuery

/-- `b.with(alias, s)` between two builders of a store: builder `b` appends
the pair `(alias, s.build())` to its CTE list, rendering `s` eagerly at the
moment of the call (part_006 lines 871–875). -/
def withOpAt (st : Store) (b s : Nat) (cteAlias : String) : Store :=
  st.set b (withOp cteAlias (getQ st s) (getQ st b))

/-- An arbitrary later mutation of the builder at position `i` (any
combination of the mutating methods, abstracted as a state function). -/
def mutateAt (st : Store) (i : Nat) (f : QState → QState) : Store :=
  st.set i (f (getQ st i))

/-- Whether line `l` starts with `pat` (used to recognise the
`ENGINE_SORTING_KEY` / `ENGINE_PARTITION_KEY` / `ENGINE_TTL` directive lines
of the emitted datasource text). -/
def lineStarts (pat l : String) : Bool :=
  isPre pat.data l.data

/-- Characters that are inert for the `/{{.*?key.*?}}/` pattern: not a brace
and not a newline. -/
def plainToken (l : List Char) : Bool :=
  l.all fun c => !(c == '\x7b') && !(c == '\x7d') && !(c == '\n')

/-- Character lists without an opening brace (regions the token scanner
passes through unchanged). -/
def noOpenBrace (l : List Char) : Bool :=
  l.all fun c => !(c == '\x7b')

/-- A datasource configuration whose `partitionBy` is provided but is the
empty string (used to probe the emitter's truthiness test). -/
def dsEmptyPartition : DataSourceConfig :=
  { name := "events"
    schema := [{ name := "id", type := "String" }, { name := "event", type := "String" }]
    engine := "MergeTree"
    sortingKey := some ["a", "b"]
    partitionBy := some "" }

/-- A datasource configuration with every optional engine directive
populated. -/
def dsFull : DataSourceConfig :=
  { name := "d"
    version := some 2
    schema := [{ name := "id", type := "String" }]
    engine := "MergeTree"
    sortingKey := some ["a", "b"]
    partitionBy := some "toDate(ts)"
    ttl := some "ts + INTERVAL 30 DAY" }

/-- The CTE list recorded by `withOp`. -/
theorem withOp_ctes (cteAlias : String) (sub q : QState) :
    (withOp cteAlias sub q).core.ctes = q.core.ctes ++ [(cteAlias, build sub)] := by
  obtain ⟨c, us⟩ := q
  rfl

/-- C4: `escape` maps `null` to `NULL`, numbers to their decimal text,
`true`/`false` to `1`/`0`; a string containing one of `( ) { }` is returned
unchanged, and any other string is single-quoted with internal quotes
doubled — in particular `escape("it's") = 'it''s'` and
`escape("func(x)") = "func(x)"`. -/
theorem escape_spec :
    escapeValue .vNull = .ok "NULL"
    ∧ (∀ n : Int, escapeValue (.vNum n) = .ok (toString n))
    ∧ escapeValue (.vBool true) = .ok "1"
    ∧ escapeValue (.vBool false) = .ok "0"
    ∧ (∀ s : String, hasSqlExprChar s = true → escapeValue (.vStr s) = .ok s)
    ∧ (∀ s : String, hasSqlExprChar s = false →
        escapeValue (.vStr s) = .ok ("\x27" ++ String.mk (doubleQuotes s.data) ++ "\x27"))
    ∧ escapeValue (.vStr "it\x27s") = .ok "\x27it\x27\x27s\x27"
    ∧ escapeValue (.vStr "func(x)") = .ok "func(x)" := by
  refine ⟨rfl, fun n => rfl, rfl, rfl, fun s h => ?_, fun s h => ?_, rfl, rfl⟩
  · simp [escapeValue, h]
  · simp [escapeValue, h]

/-- Witness for `escape_spec` at the concrete strings of the claim. -/
theorem escape_spec_witness :
    hasSqlExprChar "func(x)" = true ∧ escapeValue (.vStr "func(x)") = .ok "func(x)"
    ∧ hasSqlExprChar "it\x27s" = false
    ∧ escapeValue (.vStr "it\x27s") = .ok "\x27it\x27\x27s\x27" :=
  ⟨rfl, escape_spec.2.2.2.2.1 "func(x)" rfl, rfl,
    escape_spec.2.2.2.2.2.1 "it\x27s" rfl⟩

/-- C5: `escape` fails — with the `Unsupported value type` error — exactly
for values that are not null, not a number, not a boolean and not a string;
for the four supported kinds it returns a string without error. -/
theorem escape_error_iff (v : JsValue) :
    (escapeSupported v = false →
      escapeValue v = .error ("Unsupported value type for escaping: " ++ jsTypeof v))
    ∧ (escapeSupported v = true → ∃ out, escapeValue v = .ok out) := by
  constructor
  · intro h
    cases v <;> simp_all [escapeSupported, escapeValue]
  · intro h
    cases v with
    | vNull => exact ⟨_, rfl⟩
    | vNum n => exact ⟨_, rfl⟩
    | vBool b => exact ⟨_, rfl⟩
    | vStr s =>
      by_cases hc : hasSqlExprChar s
      · exact ⟨s, by simp [escapeValue, hc]⟩
      · exact ⟨"\x27" ++ String.mk (doubleQuotes s.data) ++ "\x27", by simp [escapeValue, hc]⟩
    | vDate iso => simp [escapeSupported] at h
    | vOther t => simp [escapeSupported] at h

/-- Witness for `escape_error_iff`: an unsupported kind fails with the
`UnsupportedValueType` error, a supported one succeeds. -/
theorem escape_error_iff_witness :
    escapeSupported (JsValue.vOther "symbol") = false
    ∧ escapeValue (JsValue.vOther "symbol")
        = .error "Unsupported value type for escaping: symbol"
    ∧ escapeSupported JsValue.vNull = true
    ∧ ∃ out, escapeValue JsValue.vNull = .ok out :=
  ⟨rfl, (escape_error_iff (JsValue.vOther "symbol")).1 rfl, rfl,
    (escape_error_iff JsValue.vNull).2 rfl⟩

/-- C1 counterexample: after `where('a = 1')`, a second `where('b = 2')`
pushes `AND b = 2`, not the bare `b = 2` the claim predicts, and the built
text shows the `AND` connective. -/
theorem where_again_counterexample :
    whereOp (.raw "a = 1") initQuery
      = .ok (QState.mk { whereL := ["a = 1"] } [])
    ∧ whereOp (.raw "b = 2") (QState.mk { whereL := ["a = 1"] } [])
      = .ok (QState.mk { whereL := ["a = 1", "AND b = 2"] } [])
    ∧ (["a = 1", "AND b = 2"] : List String) ≠ ["a = 1", "b = 2"]
    ∧ build (QState.mk { whereL := ["a = 1", "AND b = 2"] } [])
      = "SELECT *\nWHERE a = 1 AND b = 2" :=
  ⟨rfl, rfl, by decide, rfl⟩

/-- C1 as amended: the first condition added by `where` carries no
connective; once the WHERE list is non-empty a further `where` call appends
its condition prefixed with `AND ` (exactly like `and`), and `or` appends it
prefixed with `OR `. -/
theorem where_connective (s : QState) (c : String) :
    (s.core.whereL = [] →
      (whereOp (.raw c) s).map (fun t => t.core.whereL) = .ok [c])
    ∧ (s.core.whereL ≠ [] →
      (whereOp (.raw c) s).map (fun t => t.core.whereL)
        = .ok (s.core.whereL ++ ["AND " ++ c]))
    ∧ (andOp (.raw c) s).map (fun t => t.core.whereL)
      = .ok (s.core.whereL ++ ["AND " ++ c])
    ∧ (orOp (.raw c) s).map (fun t => t.core.whereL)
      = .ok (s.core.whereL ++ ["OR " ++ c]) := by
  obtain ⟨co, us⟩ := s
  refine ⟨fun h => ?_, fun h => ?_, rfl, rfl⟩
  · simp_all [whereOp, whereCondStr, QState.core, List.isEmpty_iff, Except.map]
  · simp_all [whereOp, whereCondStr, QState.core, List.isEmpty_iff, Except.map]

/-- Witness for `where_connective` on concrete states. -/
theorem where_connective_witness :
    (QState.mk { whereL := ["x = 1"] } []).core.whereL ≠ []
    ∧ (whereOp (.raw "y = 2") (QState.mk { whereL := ["x = 1"] } [])).map
        (fun t => t.core.whereL) = .ok ["x = 1", "AND y = 2"]
    ∧ initQuery.core.whereL = []
    ∧ (whereOp (.raw "y = 2") initQuery).map (fun t => t.core.whereL) = .ok ["y = 2"] :=
  ⟨by decide, (where_connective (QState.mk { whereL := ["x = 1"] } []) "y = 2").2.1 (by decide),
    rfl, (where_connective initQuery "y = 2").1 rfl⟩

/-- C6 counterexample: `raw("")` does not install an effective override —
the empty string is falsy, so `build()` falls through to normal assembly
instead of returning the empty override verbatim. -/
theorem raw_empty_counterexample :
    build (rawOp "" (fromOp "t" initQuery)) = "SELECT *\nFROM t"
    ∧ build (rawOp "" (fromOp "t" initQuery)) ≠ "" :=
  ⟨rfl, by decide⟩

/-- C6 as amended: once `raw(sql)` is called with a non-empty string,
`build()` returns it verbatim whatever else the state holds (projections,
FROM, joins, WHERE, unions, CTEs, …), and a later `raw` call replaces the
override. -/
theorem raw_override_build (st : QState) (s1 s2 : String)
    (h1 : s1 ≠ "") (h2 : s2 ≠ "") :
    build (rawOp s1 st) = s1
    ∧ build (rawOp s2 (rawOp s1 st)) = s2
    ∧ (rawOp s2 (rawOp s1 st)).core.rawSql = some s2 := by
  obtain ⟨c, us⟩ := st
  refine ⟨?_, ?_, rfl⟩ <;> simp [rawOp, build, strTruthy, h1, h2]

/-- Witness for `raw_override_build` on a state with every clause populated. -/
theorem raw_override_build_witness :
    ("X" : String) ≠ ""
    ∧ ("Y" : String) ≠ ""
    ∧ build (rawOp "X" (unionOp initQuery "UNION ALL"
        (withStrOp "cte" "SELECT 1" (fromOp "t" (selectOp ["a"] initQuery))))) = "X"
    ∧ build (rawOp "Y" (rawOp "X" (unionOp initQuery "UNION ALL"
        (withStrOp "cte" "SELECT 1" (fromOp "t" (selectOp ["a"] initQuery)))))) = "Y" := by
  have h := raw_override_build
    (unionOp initQuery "UNION ALL" (withStrOp "cte" "SELECT 1" (fromOp "t" (selectOp ["a"] initQuery))))
    "X" "Y" (by decide) (by decide)
  exact ⟨by decide, by decide, h.1, h.2.1⟩

/-- C8: a `build()` call leaves the builder's state unchanged (the source
`build` only reads `state`), and a second call on that unchanged state
returns the identical text — for every state, including states with unions,
CTEs or a raw override. -/
theorem build_idempotent (s : QState) :
    (buildCall s).1 = s
    ∧ (buildCall (buildCall s).1).2 = (buildCall s).2 :=
  ⟨rfl, rfl⟩

/-- C10: `with(alias, s)` renders `s` eagerly: the CTE pair stored on
builder `b` is `(alias, build s)` as of the call, and any mutation applied
to builder `s` afterwards leaves builder `b`'s state — and therefore its
rendered WITH clause — unchanged. -/
theorem with_eager_capture (st : Store) (b s : Nat) (cteAlias : String)
    (f : QState → QState) (hne : b ≠ s) :
    (b < st.length →
      (getQ (withOpAt st b s cteAlias) b).core.ctes
        = (getQ st b).core.ctes ++ [(cteAlias, build (getQ st s))])
    ∧ getQ (mutateAt (withOpAt st b s cteAlias) s f) b = getQ (withOpAt st b s cteAlias) b
    ∧ build (getQ (mutateAt (withOpAt st b s cteAlias) s f) b)
      = build (getQ (withOpAt st b s cteAlias) b) := by
  have key : ∀ (l : Store) (x : QState), getQ (l.set s x) b = getQ l b := by
    intro l x
    simp [getQ, List.getD, List.getElem?_set_ne (Ne.symm hne)]
  refine ⟨fun hb => ?_, key _ _, by rw [mutateAt, key]⟩
  rw [withOpAt]
  have : getQ (st.set b (withOp cteAlias (getQ st s) (getQ st b))) b
      = withOp cteAlias (getQ st s) (getQ st b) := by
    simp [getQ, List.getD, List.getElem?_set_eq_of_lt _ hb]
  rw [this, withOp_ctes]

/-- Witness for `with_eager_capture` on a two-builder store. -/
theorem with_eager_capture_witness :
    (0 : Nat) ≠ 1
    ∧ (0 : Nat) < ([fromOp "t" initQuery, fromOp "u" initQuery] : Store).length
    ∧ (getQ (withOpAt [fromOp "t" initQuery, fromOp "u" initQuery] 0 1 "c") 0).core.ctes
      = (getQ [fromOp "t" initQuery, fromOp "u" initQuery] 0).core.ctes
        ++ [("c", build (getQ [fromOp "t" initQuery, fromOp "u" initQuery] 1))]
    ∧ build (getQ (mutateAt (withOpAt [fromOp "t" initQuery, fromOp "u" initQuery] 0 1 "c") 1
          (selectOp ["x"])) 0)
      = build (getQ (withOpAt [fromOp "t" initQuery, fromOp "u" initQuery] 0 1 "c") 0) := by
  have h := with_eager_capture [fromOp "t" initQuery, fromOp "u" initQuery] 0 1 "c"
    (selectOp ["x"]) (by decide)
  exact ⟨by decide, by decide, h.1 (by decide), h.2.2⟩

/-- C7 counterexample: a parameter that also carries `required: true` takes
the `required=True` branch, so its token does not carry the literal `null`
even though its declared default is `null`. -/
theorem null_default_required_counterexample :
    mapParameterToTemplate "x"
        { type := "Int64", required := some true, default := some .vNull }
      = "\x7b\x7b Int64(x, required=True) \x7d\x7d"
    ∧ ¬ ("null".data <:+: "\x7b\x7b Int64(x, required=True) \x7d\x7d".data) :=
  ⟨rfl, by decide⟩

/-- C7 as amended: for every non-required parameter whose declared default
is `null`, the compiled token carries the literal `null` argument —
`{{ TYPE(name, null) }}` — and in particular is not the bare conditional
token `{{ TYPE(name) }}`. -/
theorem null_default_token (name : String) (p : PParam)
    (hreq : p.required ≠ some true) (hdef : p.default = some .vNull) :
    mapParameterToTemplate name p
      = "\x7b\x7b " ++ getTinybirdTemplateType p.type ++ "(" ++ name ++ ", "
        ++ "null" ++ ") \x7d\x7d"
    ∧ mapParameterToTemplate name p
      ≠ "\x7b\x7b " ++ getTinybirdTemplateType p.type ++ "(" ++ name ++ ") \x7d\x7d" := by
  have hr : (p.required == some true) = false := by simpa using hreq
  have heq : mapParameterToTemplate name p
      = "\x7b\x7b " ++ getTinybirdTemplateType p.type ++ "(" ++ name ++ ", "
        ++ "null" ++ ") \x7d\x7d" := by
    simp [mapParameterToTemplate, hr, hdef, formatDefaultValue]
  refine ⟨heq, ?_⟩
  intro hbad
  rw [heq] at hbad
  have hlen := congrArg String.length hbad
  simp [String.length_append] at hlen
  rw [show (", " : String).length = 2 from rfl,
    show ("null" : String).length = 4 from rfl] at hlen
  omega

/-- Witness for `null_default_token` at a concrete parameter. -/
theorem null_default_token_witness :
    ({ type := "Int64", required := none, default := some .vNull } : PParam).required
        ≠ some true
    ∧ ({ type := "Int64", required := none, default := some .vNull } : PParam).default
        = some .vNull
    ∧ mapParameterToTemplate "lim"
        { type := "Int64", required := none, default := some .vNull }
      = "\x7b\x7b Int64(lim, null) \x7d\x7d" := by
  have h := null_default_token "lim"
    { type := "Int64", required := none, default := some .vNull } (by simp) rfl
  exact ⟨by simp, rfl, h.1⟩

/-- Every line the emitter pushes for a column starts with the four-space
indent. -/
theorem columnLines_all_space (cs : List ColumnDef) :
    (columnLines cs).all (fun l => isPre [' '] l.data) = true := by
  induction cs with
  | nil => rfl
  | cons c rest ih =>
    cases rest with
    | nil =>
      by_cases hc : strTruthy c.comment = true <;>
        simp [columnLines, hc, columnLine] <;>
        first
          | exact ⟨rfl, rfl⟩
          | exact rfl
    | cons r rs =>
      by_cases hc : strTruthy c.comment = true <;>
        simp_all [columnLines, hc, columnLine, List.all_append] <;>
        first
          | exact ⟨rfl, rfl⟩
          | exact rfl

/-- A list of space-indented lines has no line starting with a non-space
character. -/
theorem any_nonspace_false (pc : Char) (ps : List Char) (hpc : (pc == ' ') = false) :
    ∀ ls : List String, ls.all (fun l => isPre [' '] l.data) = true →
      ls.any (fun l => isPre (pc :: ps) l.data) = false := by
  intro ls
  induction ls with
  | nil => intro _; rfl
  | cons l rest ih =>
    intro hall
    rw [List.all_cons, Bool.and_eq_true] at hall
    rw [List.any_cons, ih hall.2, Bool.or_false]
    cases hl : l.data with
    | nil => rfl
    | cons c t =>
      have h1 := hall.1
      rw [hl] at h1
      have hc : (' ' == c) = true := by
        simpa [isPre] using h1
      have hceq : c = ' ' := (eq_of_beq hc).symm
      subst hceq
      simp [isPre, hpc]

/-- C9 as amended: the emitted datasource text has an `ENGINE_SORTING_KEY`
line (with the entries comma-joined) exactly when a non-empty `sortingKey`
is provided, an `ENGINE_PARTITION_KEY` line exactly when a truthy
(non-empty) `partitionBy` is provided, and an `ENGINE_TTL` line exactly when
a truthy (non-empty) `ttl` is provided. -/
theorem datasource_directives (d : DataSourceConfig) :
    ((generateDatasourceLines d).any (lineStarts "ENGINE_SORTING_KEY")
      = match d.sortingKey with
        | some ks => decide (0 < ks.length)
        | none => false)
    ∧ ((generateDatasourceLines d).any (lineStarts "ENGINE_PARTITION_KEY")
      = strTruthy d.partitionBy)
    ∧ ((generateDatasourceLines d).any (lineStarts "ENGINE_TTL") = strTruthy d.ttl)
    ∧ (∀ ks, d.sortingKey = some ks → 0 < ks.length →
        ("ENGINE_SORTING_KEY \"" ++ String.intercalate "," ks ++ "\"")
          ∈ generateDatasourceLines d) := by
  obtain ⟨nm, ver, schema, eng, sortK, partB, ttlF⟩ := d
  have hcolsAll := columnLines_all_space schema
  have hverS : ((if numTruthy ver then ["VERSION " ++ toString (ver.getD 0), ""] else []).any
      (lineStarts "ENGINE_SORTING_KEY")) = false := by
    cases hv : numTruthy ver <;> rfl
  have hverP : ((if numTruthy ver then ["VERSION " ++ toString (ver.getD 0), ""] else []).any
      (lineStarts "ENGINE_PARTITION_KEY")) = false := by
    cases hv : numTruthy ver <;> rfl
  have hverT : ((if numTruthy ver then ["VERSION " ++ toString (ver.getD 0), ""] else []).any
      (lineStarts "ENGINE_TTL")) = false := by
    cases hv : numTruthy ver <;> rfl
  have hcolS : (columnLines schema).any (lineStarts "ENGINE_SORTING_KEY") = false :=
    any_nonspace_false 'E' "NGINE_SORTING_KEY".data (by decide) _ hcolsAll
  have hcolP : (columnLines schema).any (lineStarts "ENGINE_PARTITION_KEY") = false :=
    any_nonspace_false 'E' "NGINE_PARTITION_KEY".data (by decide) _ hcolsAll
  have hcolT : (columnLines schema).any (lineStarts "ENGINE_TTL") = false :=
    any_nonspace_false 'E' "NGINE_TTL".data (by decide) _ hcolsAll
  have hsortS : ((match sortK with
      | some ks => if 0 < ks.length then
          ["ENGINE_SORTING_KEY \"" ++ String.intercalate "," ks ++ "\""] else []
      | none => ([] : List String)).any (lineStarts "ENGINE_SORTING_KEY"))
      = match sortK with
        | some ks => decide (0 < ks.length)
        | none => false := by
    cases sortK with
    | none => rfl
    | some ks =>
      dsimp only
      by_cases hl : 0 < ks.length
      · rw [if_pos hl, decide_eq_true hl]; rfl
      · rw [if_neg hl, decide_eq_false hl]; rfl
  have hsortP : ((match sortK with
      | some ks => if 0 < ks.length then
          ["ENGINE_SORTING_KEY \"" ++ String.intercalate "," ks ++ "\""] else []
      | none => ([] : List String)).any (lineStarts "ENGINE_PARTITION_KEY")) = false := by
    cases sortK with
    | none => rfl
    | some ks =>
      dsimp only
      by_cases hl : 0 < ks.length
      · rw [if_pos hl]; rfl
      · rw [if_neg hl]; rfl
  have hsortT : ((match sortK with
      | some ks => if 0 < ks.length then
          ["ENGINE_SORTING_KEY \"" ++ String.intercalate "," ks ++ "\""] else []
      | none => ([] : List String)).any (lineStarts "ENGINE_TTL")) = false := by
    cases sortK with
    | none => rfl
    | some ks =>
      dsimp only
      by_cases hl : 0 < ks.length
      · rw [if_pos hl]; rfl
      · rw [if_neg hl]; rfl
  have hpartS : ((if strTruthy partB then
      ["ENGINE_PARTITION_KEY \"" ++ partB.getD "" ++ "\""] else []).any
        (lineStarts "ENGINE_SORTING_KEY")) = false := by
    cases hp : strTruthy partB <;> rfl
  have hpartP : ((if strTruthy partB then
      ["ENGINE_PARTITION_KEY \"" ++ partB.getD "" ++ "\""] else []).any
        (lineStarts "ENGINE_PARTITION_KEY")) = strTruthy partB := by
    cases hp : strTruthy partB <;> rfl
  have hpartT : ((if strTruthy partB then
      ["ENGINE_PARTITION_KEY \"" ++ partB.getD "" ++ "\""] else []).any
        (lineStarts "ENGINE_TTL")) = false := by
    cases hp : strTruthy partB <;> rfl
  have httlS : ((if strTruthy ttlF then
      ["ENGINE_TTL \"" ++ ttlF.getD "" ++ "\""] else []).any
        (lineStarts "ENGINE_SORTING_KEY")) = false := by
    cases ht : strTruthy ttlF <;> rfl
  have httlP : ((if strTruthy ttlF then
      ["ENGINE_TTL \"" ++ ttlF.getD "" ++ "\""] else []).any
        (lineStarts "ENGINE_PARTITION_KEY")) = false := by
    cases ht : strTruthy ttlF <;> rfl
  have httlT : ((if strTruthy ttlF then
      ["ENGINE_TTL \"" ++ ttlF.getD "" ++ "\""] else []).any
        (lineStarts "ENGINE_TTL")) = strTruthy ttlF := by
    cases ht : strTruthy ttlF <;> rfl
  refine ⟨?_, ?_, ?_, ?_⟩
  · simp only [generateDatasourceLines, List.any_append]
    rw [hverS, hcolS, hsortS, hpartS, httlS,
      show ((["SCHEMA >"] : List String).any (lineStarts "ENGINE_SORTING_KEY")) = false from rfl,
      show (([""] : List String).any (lineStarts "ENGINE_SORTING_KEY")) = false from rfl,
      show ((["ENGINE \"" ++ eng ++ "\""] : List String).any
        (lineStarts "ENGINE_SORTING_KEY")) = false from rfl]
    simp
  · simp only [generateDatasourceLines, List.any_append]
    rw [hverP, hcolP, hsortP, hpartP, httlP,
      show ((["SCHEMA >"] : List String).any (lineStarts "ENGINE_PARTITION_KEY")) = false from rfl,
      show (([""] : List String).any (lineStarts "ENGINE_PARTITION_KEY")) = false from rfl,
      show ((["ENGINE \"" ++ eng ++ "\""] : List String).any
        (lineStarts "ENGINE_PARTITION_KEY")) = false from rfl]
    simp
  · simp only [generateDatasourceLines, List.any_append]
    rw [hverT, hcolT, hsortT, hpartT, httlT,
      show ((["SCHEMA >"] : List String).any (lineStarts "ENGINE_TTL")) = false from rfl,
      show (([""] : List String).any (lineStarts "ENGINE_TTL")) = false from rfl,
      show ((["ENGINE \"" ++ eng ++ "\""] : List String).any
        (lineStarts "ENGINE_TTL")) = false from rfl]
    simp
  · intro ks hks hl
    subst hks
    refine List.mem_append.mpr (Or.inl (List.mem_append.mpr (Or.inl
      (List.mem_append.mpr (Or.inr ?_)))))
    dsimp only [generateDatasourceLines]
    rw [if_pos hl]
    exact List.mem_singleton.mpr rfl

/-- C9 counterexample: with `partitionBy` provided as the empty string the
emitter omits the `ENGINE_PARTITION_KEY` line (the claim requires the line
for every provided `partitionBy`); the sorting-key part of the claim behaves
as documented. -/
theorem datasource_empty_partition_counterexample :
    dsEmptyPartition.partitionBy = some ""
    ∧ (generateDatasourceLines dsEmptyPartition).any (lineStarts "ENGINE_PARTITION_KEY")
        = false
    ∧ (generateDatasourceLines dsEmptyPartition).any (lineStarts "ENGINE_SORTING_KEY")
        = true
    ∧ generateDatasourceFile dsEmptyPartition
        = "SCHEMA >\n    `id` String `json:$.id`,\n    `event` String `json:$.event`\n\nENGINE \"MergeTree\"\nENGINE_SORTING_KEY \"a,b\"\n" :=
  ⟨rfl, rfl, rfl, rfl⟩

/-- Witness for `datasource_directives` on a fully populated configuration. -/
theorem datasource_directives_witness :
    ((generateDatasourceLines dsFull).any (lineStarts "ENGINE_SORTING_KEY") = true)
    ∧ ((generateDatasourceLines dsFull).any (lineStarts "ENGINE_PARTITION_KEY")
        = strTruthy dsFull.partitionBy)
    ∧ ((generateDatasourceLines dsFull).any (lineStarts "ENGINE_TTL") = strTruthy dsFull.ttl)
    ∧ dsFull.sortingKey = some ["a", "b"]
    ∧ 0 < (["a", "b"] : List String).length
    ∧ "ENGINE_SORTING_KEY \"a,b\"" ∈ generateDatasourceLines dsFull := by
  have h := datasource_directives dsFull
  refine ⟨?_, h.2.1, h.2.2.1, rfl, by decide, ?_⟩
  · rw [h.1]; rfl
  · exact h.2.2.2 ["a", "b"] rfl (by decide)

/-- `isPre` decides the prefix relation. -/
theorem isPre_iff (pat : List Char) : ∀ s, isPre pat s = true ↔ pat <+: s := by
  induction pat with
  | nil => intro s; simp [isPre]
  | cons a as ih =>
    intro s
    cases s with
    | nil => simp [isPre]
    | cons b bs => simp [isPre, ih, List.cons_prefix_cons]

/-- A successful lazy search splits its input at the found occurrence. -/
theorem findLazy_some (pat : List Char) :
    ∀ s g r, findLazy pat s = some (g, r) → g ++ pat ++ r = s := by
  intro s
  induction s with
  | nil =>
    intro g r h
    simp only [findLazy] at h
    by_cases hp : isPre pat [] = true
    · rw [if_pos hp] at h
      have hpre : pat <+: [] := (isPre_iff pat []).mp hp
      have : pat = [] := List.prefix_nil.mp hpre
      cases h
      simp [this]
    · rw [if_neg hp] at h
      cases h
  | cons c rest ih =>
    intro g r h
    simp only [findLazy] at h
    by_cases hp : isPre pat (c :: rest) = true
    · rw [if_pos hp] at h
      cases h
      have hpre : pat <+: c :: rest := (isPre_iff pat _).mp hp
      obtain ⟨t, ht⟩ := hpre
      calc [] ++ pat ++ (c :: rest).drop pat.length
          = pat ++ (pat ++ t).drop pat.length := by rw [← ht]; rfl
        _ = pat ++ t := by rw [List.drop_left]
        _ = c :: rest := ht
    · rw [if_neg hp] at h
      by_cases hn : (c == '\n') = true
      · rw [if_pos hn] at h; cases h
      · rw [if_neg hn] at h
        cases hfl : findLazy pat rest with
        | none => rw [hfl] at h; cases h
        | some pr =>
          obtain ⟨g', r'⟩ := pr
          rw [hfl] at h
          simp only [Option.map_some'] at h
          cases h
          exact congrArg (List.cons c) (ih _ _ hfl)

/-- A successful lazy search implies the pattern occurs in the input. -/
theorem findLazy_infix (pat s : List Char) (pr : List Char × List Char)
    (h : findLazy pat s = some pr) : pat <:+: s := by
  obtain ⟨g, r⟩ := pr
  exact ⟨g, r, (findLazy_some pat s g r h).symm ▸ rfl⟩

/-- A token match implies the key occurs in the scanned region. -/
theorem matchToken_infix (key s : List Char) (pr : List Char × List Char)
    (h : matchToken key s = some pr) : key <:+: s := by
  unfold matchToken at h
  obtain ⟨pr1, hfl, -⟩ := Option.bind_eq_some.mp h
  exact findLazy_infix key s pr1 hfl

/-- The remainder after a token match is no longer than the input. -/
theorem matchToken_length (key s : List Char) (mid r : List Char)
    (h : matchToken key s = some (mid, r)) : r.length ≤ s.length := by
  unfold matchToken at h
  obtain ⟨⟨g1, r1⟩, hfl, h2⟩ := Option.bind_eq_some.mp h
  obtain ⟨⟨g2, r2⟩, hfl2, h3⟩ := Option.map_eq_some'.mp h2
  cases h3
  have e1 := findLazy_some key s g1 r1 hfl
  have e2 := findLazy_some ['\x7d', '\x7d'] r1 g2 r2 hfl2
  show r2.length ≤ s.length
  have l1 : r1.length ≤ s.length := by
    rw [← e1]; simp [List.length_append]; omega
  have l2 : r2.length ≤ r1.length := by
    rw [← e2]; simp [List.length_append]; omega
  omega

/-- A scan for a key that does not occur in the input leaves it unchanged. -/
theorem scan_nomatch (key wl wr : List Char) :
    ∀ (fuel : Nat) (s : List Char), ¬ (key <:+: s) → scanRepl key wl wr fuel s = s := by
  intro fuel
  induction fuel with
  | zero => intro s _; rfl
  | succ n ih =>
    intro s hs
    cases s with
    | nil => rfl
    | cons c rest =>
      have hrest : ¬ (key <:+: rest) := fun h =>
        hs (h.trans (List.suffix_cons c rest).isInfix)
      simp only [scanRepl]
      by_cases hg : (c == '\x7b' && isPre ['\x7b'] rest) = true
      · rw [if_pos hg]
        cases hm : matchToken key rest.tail with
        | some pr =>
          exfalso
          have hti : key <:+: rest.tail := matchToken_infix key rest.tail pr hm
          exact hrest (hti.trans (List.tail_suffix rest).isInfix)
        | none => rw [ih rest hrest]
      · rw [if_neg hg, ih rest hrest]

/-- Any fuel of at least the input length gives the same scan result. -/
theorem scanRepl_fuel_add (key wl wr : List Char) :
    ∀ (f : Nat) (δ : Nat) (s : List Char), s.length ≤ f →
      scanRepl key wl wr (f + δ) s = scanRepl key wl wr f s := by
  intro f
  induction f with
  | zero =>
    intro δ s hs
    have : s = [] := List.length_eq_zero.mp (Nat.le_zero.mp hs)
    subst this
    cases δ <;> rfl
  | succ n ih =>
    intro δ s hs
    cases s with
    | nil =>
      have : n + 1 + δ = (n + δ) + 1 := by omega
      rw [this]
      rfl
    | cons c rest =>
      have hrest : rest.length ≤ n := by
        simp at hs; omega
      have hstep : n + 1 + δ = (n + δ) + 1 := by omega
      rw [hstep]
      simp only [scanRepl]
      by_cases hg : (c == '\x7b' && isPre ['\x7b'] rest) = true
      · rw [if_pos hg, if_pos hg]
        cases hm : matchToken key rest.tail with
        | some pr =>
          obtain ⟨mid, r⟩ := pr
          have hr : r.length ≤ n := by
            have h1 := matchToken_length key rest.tail mid r hm
            have h2 : rest.tail.length ≤ rest.length := by
              cases rest <;> simp
            omega
          dsimp only
          rw [ih δ r hr]
        | none =>
          dsimp only
          rw [ih δ rest hrest]
      · rw [if_neg hg, if_neg hg, ih δ rest hrest]

/-- In a brace- and newline-free region containing the key, the lazy search
succeeds inside the region, whatever follows it. -/
theorem findLazy_in_plain (key : List Char) :
    ∀ (w : List Char), plainToken w = true → key <:+: w →
    ∀ tail, ∃ g w2, findLazy key (w ++ tail) = some (g, w2 ++ tail)
      ∧ g ++ key ++ w2 = w := by
  intro w
  induction w with
  | nil =>
    intro _ hinf tail
    have hk : key = [] := by
      simpa using List.eq_nil_of_infix_nil hinf
    subst hk
    refine ⟨[], [], ?_, rfl⟩
    cases tail <;> rfl
  | cons a w' ih =>
    intro hplain hinf tail
    have hplain' : plainToken (a :: w') = true := hplain
    rw [plainToken, List.all_cons, Bool.and_eq_true] at hplain'
    obtain ⟨ha, hw'⟩ := hplain'
    simp only [Bool.and_eq_true, Bool.not_eq_true'] at ha
    by_cases hp : isPre key ((a :: w') ++ tail) = true
    · have hkle : key.length ≤ (a :: w').length := hinf.length_le
      have h1 : key <+: (a :: w') ++ tail := (isPre_iff _ _).mp hp
      have hkpre : key <+: (a :: w') := by
        have ht : ((a :: w') ++ tail).take key.length = key :=
          List.prefix_iff_eq_take.mp h1 ▸ rfl
        rw [List.take_append_of_le_length hkle] at ht
        rw [← ht]
        exact List.take_prefix _ _
      obtain ⟨w2, hw2⟩ := hkpre
      refine ⟨[], w2, ?_, by simpa using hw2⟩
      have hd : ((a :: w') ++ tail).drop key.length = w2 ++ tail := by
        rw [← hw2, List.append_assoc, List.drop_left]
      show findLazy key (a :: (w' ++ tail)) = some ([], w2 ++ tail)
      simp only [findLazy]
      rw [if_pos (show isPre key (a :: (w' ++ tail)) = true from hp)]
      rw [show (a :: (w' ++ tail)).drop key.length = w2 ++ tail from hd]
    · have hinf' : key <:+: w' := by
        obtain ⟨u, v, huv⟩ := hinf
        cases u with
        | nil =>
          exfalso
          apply hp
          rw [isPre_iff]
          have hkp : key <+: a :: w' := ⟨v, by simpa using huv⟩
          exact hkp.trans (List.prefix_append _ _)
        | cons b u' =>
          have huv' : b :: (u' ++ key ++ v) = a :: w' := by
            simpa [List.append_assoc] using huv
          have : u' ++ key ++ v = w' := by
            have := (List.cons.injEq _ _ _ _ ▸ huv').2
            simpa [List.append_assoc] using this
          exact ⟨u', v, this⟩
      obtain ⟨g, w2, hfl, hsplit⟩ := ih hw' hinf' tail
      refine ⟨a :: g, w2, ?_, ?_⟩
      · show findLazy key (a :: (w' ++ tail)) = some (a :: g, w2 ++ tail)
        simp only [findLazy]
        rw [if_neg (show ¬ isPre key (a :: (w' ++ tail)) = true from hp),
          if_neg (by simp [ha.2]), hfl]
        rfl
      · show a :: (g ++ key ++ w2) = a :: w'
        rw [hsplit]

/-- When the remaining token text is brace-free, the first `\x7d\x7d` found is
the token's closing one. -/
theorem findLazy_close :
    ∀ (w2 : List Char), plainToken w2 = true → ∀ post,
      findLazy ['\x7d', '\x7d'] (w2 ++ '\x7d' :: '\x7d' :: post) = some (w2, post) := by
  intro w2
  induction w2 with
  | nil => intro _ post; rfl
  | cons a w' ih =>
    intro hplain post
    rw [plainToken, List.all_cons, Bool.and_eq_true] at hplain
    obtain ⟨ha, hw'⟩ := hplain
    simp only [Bool.and_eq_true, Bool.not_eq_true'] at ha
    show findLazy ['\x7d', '\x7d'] (a :: (w' ++ '\x7d' :: '\x7d' :: post))
      = some (a :: w', post)
    simp only [findLazy]
    have ha2 : a ≠ '\x7d' := by
      intro hcon
      rw [hcon] at ha
      exact absurd ha.1.2 (by simp)
    have hnp : ¬ isPre ['\x7d', '\x7d'] (a :: (w' ++ '\x7d' :: '\x7d' :: post)) = true := by
      simp only [isPre, Bool.and_eq_true]
      intro hcon
      exact ha2 (eq_of_beq hcon.1).symm
    rw [if_neg hnp, if_neg (by simp [ha.2]), ih hw' post]
    rfl

/-- The scanner copies a brace-free region unchanged and continues after it. -/
theorem scan_pre (key wl wr : List Char) :
    ∀ (pre : List Char), noOpenBrace pre = true → ∀ n s,
      scanRepl key wl wr (pre.length + n) (pre ++ s) = pre ++ scanRepl key wl wr n s := by
  intro pre
  induction pre with
  | nil =>
    intro _ n s
    rw [show ([] : List Char).length + n = n from by simp]
    rfl
  | cons a pre' ih =>
    intro hpre n s
    rw [noOpenBrace, List.all_cons, Bool.and_eq_true] at hpre
    obtain ⟨ha, hpre'⟩ := hpre
    rw [Bool.not_eq_true'] at ha
    have hlen : (a :: pre').length + n = (pre'.length + n) + 1 := by
      simp; omega
    rw [hlen]
    show scanRepl key wl wr ((pre'.length + n) + 1) (a :: (pre' ++ s))
      = a :: (pre' ++ scanRepl key wl wr n s)
    simp only [scanRepl]
    rw [if_neg (by simp [ha]), ih hpre' n s]

theorem scan_token (key wl wr : List Char) (pre mid post : List Char)
    (hpre : noOpenBrace pre = true) (hmid : plainToken mid = true)
    (hkey : key <:+: mid) :
    scanRepl key wl wr (pre.length + (mid.length + post.length + 4))
        (pre ++ '\x7b' :: '\x7b' :: (mid ++ '\x7d' :: '\x7d' :: post))
      = pre ++ ((wl ++ ('\x7b' :: '\x7b' :: (mid ++ ['\x7d', '\x7d'])) ++ wr)
          ++ scanRepl key wl wr post.length post) := by
  rw [scan_pre key wl wr pre hpre]
  congr 1
  have hmt : matchToken key (mid ++ '\x7d' :: '\x7d' :: post)
      = some (mid ++ ['\x7d', '\x7d'], post) := by
    unfold matchToken
    obtain ⟨g, w2, hfl, hsplit⟩ := findLazy_in_plain key mid hmid hkey ('\x7d' :: '\x7d' :: post)
    rw [hfl]
    have hw2 : plainToken w2 = true := by
      rw [← hsplit] at hmid
      rw [plainToken, List.all_append, List.all_append, Bool.and_eq_true,
        Bool.and_eq_true] at hmid
      exact hmid.2
    simp only [Option.some_bind]
    rw [findLazy_close w2 hw2 post]
    simp only [Option.map_some']
    simp only [Option.some.injEq, Prod.mk.injEq]
    refine ⟨?_, trivial⟩
    rw [← hsplit]
  have hfuel : mid.length + post.length + 4 = (mid.length + post.length + 3) + 1 := by omega
  rw [hfuel]
  simp only [scanRepl]
  rw [if_pos (by rfl)]
  simp only [List.tail_cons]
  rw [hmt]
  simp only
  have hfuel2 : mid.length + post.length + 3 = post.length + (mid.length + 3) := by omega
  rw [hfuel2, scanRepl_fuel_add key wl wr post.length (mid.length + 3) post le_rfl]

/-- Reassociation of a matched token against a following region. -/
theorem tok_append (a b : List Char) :
    ('\x7b' :: '\x7b' :: (a ++ ['\x7d', '\x7d'])) ++ b
      = '\x7b' :: '\x7b' :: (a ++ ('\x7d' :: '\x7d' :: b)) := by
  simp

/-- A regex replacement for a key that does not occur in the SQL text leaves
the text unchanged. -/
theorem regexWrapAll_nomatch (key sql : String) (h : ¬ (key.data <:+: sql.data)) :
    regexWrapAll key sql = sql := by
  unfold regexWrapAll
  rw [scan_nomatch _ _ _ _ _ h]

/-- The single-token characterisation of `/{{.*?key.*?}}/g` replacement: a
brace-and-newline-free token middle containing the key anywhere as a
substring is wrapped whole, regardless of which parameter the token belongs
to; scanning continues after the token. -/
theorem regexWrapAll_token (key mid pre post : String)
    (hpre : noOpenBrace pre.data = true)
    (hmid : plainToken mid.data = true)
    (hkey : key.data <:+: mid.data) :
    regexWrapAll key (pre ++ "\x7b\x7b" ++ mid ++ "\x7d\x7d" ++ post)
      = pre ++ "\x7b% if defined(" ++ key ++ ") %\x7d \x7b\x7b" ++ mid
          ++ "\x7d\x7d \x7b% end %\x7d" ++ regexWrapAll key post := by
  unfold regexWrapAll
  have hD : (pre ++ "\x7b\x7b" ++ mid ++ "\x7d\x7d" ++ post).data
      = pre.data ++ '\x7b' :: '\x7b' :: (mid.data ++ '\x7d' :: '\x7d' :: post.data) := by
    simp only [String.data_append, List.append_assoc]
    rfl
  rw [hD]
  have hN : (pre.data ++ '\x7b' :: '\x7b' :: (mid.data ++ '\x7d' :: '\x7d' :: post.data)).length
      = pre.data.length + (mid.data.length + post.data.length + 4) := by
    simp [List.length_append]
    omega
  rw [hN]
  rw [scan_token _ _ _ pre.data mid.data post.data hpre hmid hkey]
  have hdata : (pre ++ "\x7b% if defined(" ++ key ++ ") %\x7d \x7b\x7b" ++ mid
      ++ "\x7d\x7d \x7b% end %\x7d"
      ++ String.mk (scanRepl key.data ("\x7b% if defined(" ++ key ++ ") %\x7d ").data
          (" \x7b% end %\x7d").data post.data.length post.data)).data
      = pre.data ++ ((("\x7b% if defined(" ++ key ++ ") %\x7d ").data
          ++ ('\x7b' :: '\x7b' :: (mid.data ++ ['\x7d', '\x7d']))
          ++ (" \x7b% end %\x7d").data)
          ++ scanRepl key.data ("\x7b% if defined(" ++ key ++ ") %\x7d ").data
              (" \x7b% end %\x7d").data post.data.length post.data) := by
    simp only [String.data_append, List.append_assoc]
    rw [tok_append]
    rfl
  calc String.mk (pre.data
        ++ ((("\x7b% if defined(" ++ key ++ ") %\x7d ").data
          ++ ('\x7b' :: '\x7b' :: (mid.data ++ ['\x7d', '\x7d']))
          ++ (" \x7b% end %\x7d").data)
          ++ scanRepl key.data ("\x7b% if defined(" ++ key ++ ") %\x7d ").data
              (" \x7b% end %\x7d").data post.data.length post.data))
      = String.mk ((pre ++ "\x7b% if defined(" ++ key ++ ") %\x7d \x7b\x7b" ++ mid
          ++ "\x7d\x7d \x7b% end %\x7d"
          ++ String.mk (scanRepl key.data ("\x7b% if defined(" ++ key ++ ") %\x7d ").data
              (" \x7b% end %\x7d").data post.data.length post.data)).data) :=
        congrArg String.mk hdata.symm
    _ = _ := rfl

/-- The conditional-wrapping step leaves the SQL text unchanged when no
wrapped parameter's name occurs anywhere in it. -/
theorem addCond_unchanged (parameters : List (String × PParam))
    (definedP : String → Bool) (sql : String)
    (h : ∀ kv ∈ parameters, (!(kv.2.required == some true) && definedP kv.1) = true →
      ¬ (kv.1.data <:+: sql.data)) :
    addConditionalParameters parameters definedP sql = sql := by
  induction parameters with
  | nil => rfl
  | cons kv rest ih =>
    unfold addConditionalParameters
    rw [List.foldl_cons]
    by_cases hc : (!(kv.2.required == some true) && definedP kv.1) = true
    · rw [if_pos hc, regexWrapAll_nomatch _ _ (h kv (List.mem_cons_self _ _) hc)]
      exact ih fun kv' hm hcond => h kv' (List.mem_cons_of_mem _ hm) hcond
    · rw [if_neg hc]
      exact ih fun kv' hm hcond => h kv' (List.mem_cons_of_mem _ hm) hcond

/-- C2 counterexample: with a required parameter `user_id` and a conditional
parameter `id` (whose name is a substring of `user_id`), the wrapping pass
for `id` also wraps the `user_id` token, because `/{{.*?id.*?}}/` matches any
token whose text contains `id` anywhere. -/
theorem conditional_wrap_cross_counterexample :
    addConditionalParameters
        [("user_id", { type := "String", required := some true }),
         ("id", { type := "Int64" })]
        (fun _ => true)
        "SELECT * FROM t WHERE user_id = \x7b\x7b String(user_id, required=True) \x7d\x7d AND id = \x7b\x7b Int64(id) \x7d\x7d"
      = "SELECT * FROM t WHERE user_id = \x7b% if defined(id) %\x7d \x7b\x7b String(user_id, required=True) \x7d\x7d \x7b% end %\x7d AND id = \x7b% if defined(id) %\x7d \x7b\x7b Int64(id) \x7d\x7d \x7b% end %\x7d"
    ∧ addConditionalParameters
        [("user_id", { type := "String", required := some true }),
         ("id", { type := "Int64" })]
        (fun _ => true)
        "SELECT * FROM t WHERE user_id = \x7b\x7b String(user_id, required=True) \x7d\x7d AND id = \x7b\x7b Int64(id) \x7d\x7d"
      ≠ "SELECT * FROM t WHERE user_id = \x7b\x7b String(user_id, required=True) \x7d\x7d AND id = \x7b% if defined(id) %\x7d \x7b\x7b Int64(id) \x7d\x7d \x7b% end %\x7d" :=
  ⟨rfl, by decide⟩

/-- C2 as amended: the conditional-wrapping step is substring-based, not
scoped to the exact parameter name: every single-line `{{ … }}` token whose
text contains the conditional parameter's name anywhere as a substring —
including a token that belongs to a different parameter whose name merely
contains the conditional name — is wrapped whole in the
`{% if defined(name) %} … {% end %}` block. -/
theorem conditional_wrap_substring (key ty mid pre post : String)
    (hpre : noOpenBrace pre.data = true)
    (hmid : plainToken mid.data = true)
    (hkey : key.data <:+: mid.data) :
    addConditionalParameters [(key, { type := ty })] (fun _ => true)
        (pre ++ "\x7b\x7b" ++ mid ++ "\x7d\x7d" ++ post)
      = pre ++ "\x7b% if defined(" ++ key ++ ") %\x7d \x7b\x7b" ++ mid
          ++ "\x7d\x7d \x7b% end %\x7d" ++ regexWrapAll key post := by
  show regexWrapAll key (pre ++ "\x7b\x7b" ++ mid ++ "\x7d\x7d" ++ post) = _
  exact regexWrapAll_token key mid pre post hpre hmid hkey

/-- Witness for `conditional_wrap_substring`: `id` is a substring of the
`user_id` token's text, so the `user_id` token is wrapped. -/
theorem conditional_wrap_substring_witness :
    noOpenBrace "WHERE user_id = ".data = true
    ∧ plainToken " String(user_id, required=True) ".data = true
    ∧ "id".data <:+: " String(user_id, required=True) ".data
    ∧ addConditionalParameters [("id", { type := "Int64" })] (fun _ => true)
        ("WHERE user_id = " ++ "\x7b\x7b" ++ " String(user_id, required=True) "
          ++ "\x7d\x7d" ++ "")
      = "WHERE user_id = " ++ "\x7b% if defined(id) %\x7d \x7b\x7b"
          ++ " String(user_id, required=True) " ++ "\x7d\x7d \x7b% end %\x7d"
          ++ regexWrapAll "id" "" :=
  ⟨by decide, by decide, by decide,
    conditional_wrap_substring "id" "Int64" " String(user_id, required=True) "
      "WHERE user_id = " "" (by decide) (by decide) (by decide)⟩

/-- C3 counterexample: a required String parameter's token renders correctly,
but a conditional parameter named `re` — a substring of `required=True` —
wraps the required token in its `{% if defined(re) %}` block, so the
required token is not left unwrapped. -/
theorem required_token_wrapped_counterexample :
    mapParameterToTemplate "foo" { type := "String", required := some true }
      = "\x7b\x7b String(foo, required=True) \x7d\x7d"
    ∧ addConditionalParameters
        [("foo", { type := "String", required := some true }),
         ("re", { type := "Int64" })]
        (fun _ => true)
        ("SELECT * FROM t WHERE a = "
          ++ mapParameterToTemplate "foo" { type := "String", required := some true })
      = "SELECT * FROM t WHERE a = \x7b% if defined(re) %\x7d \x7b\x7b String(foo, required=True) \x7d\x7d \x7b% end %\x7d"
    ∧ addConditionalParameters
        [("foo", { type := "String", required := some true }),
         ("re", { type := "Int64" })]
        (fun _ => true)
        ("SELECT * FROM t WHERE a = "
          ++ mapParameterToTemplate "foo" { type := "String", required := some true })
      ≠ "SELECT * FROM t WHERE a = "
          ++ mapParameterToTemplate "foo" { type := "String", required := some true } :=
  ⟨rfl, rfl, by decide⟩

/-- C3 as amended: a String-typed parameter with `required=true` always
compiles to `{{ String(name, required=True) }}` (whatever its default), and
the conditional-wrapping step leaves the body — hence the required token —
unchanged provided no conditional parameter's name occurs anywhere in the
body as a substring. -/
theorem required_param_render (name : String) (d : Option JsValue)
    (parameters : List (String × PParam)) (definedP : String → Bool) (sql : String)
    (h : ∀ kv ∈ parameters, (!(kv.2.required == some true) && definedP kv.1) = true →
        ¬ (kv.1.data <:+: sql.data)) :
    mapParameterToTemplate name { type := "String", required := some true, default := d }
      = "\x7b\x7b String(" ++ name ++ ", required=True) \x7d\x7d"
    ∧ addConditionalParameters parameters definedP sql = sql :=
  ⟨rfl, addCond_unchanged parameters definedP sql h⟩

/-- Witness for `required_param_render`: no conditional name occurs in the
body, so the required token stays untouched. -/
theorem required_param_render_witness :
    (∀ kv ∈ [("zz", ({ type := "Int64" } : PParam))],
      (!(kv.2.required == some true) && (fun _ => true) kv.1) = true →
        ¬ (kv.1.data <:+: ("SELECT \x7b\x7b String(foo, required=True) \x7d\x7d" : String).data))
    ∧ mapParameterToTemplate "foo" { type := "String", required := some true, default := none }
        = "\x7b\x7b String(foo, required=True) \x7d\x7d"
    ∧ addConditionalParameters [("zz", { type := "Int64" })] (fun _ => true)
        "SELECT \x7b\x7b String(foo, required=True) \x7d\x7d"
      = "SELECT \x7b\x7b String(foo, required=True) \x7d\x7d" := by
  have h := required_param_render "foo" none [("zz", { type := "Int64" })] (fun _ => true)
    "SELECT \x7b\x7b String(foo, required=True) \x7d\x7d" (by decide)
  exact ⟨by decide, h.1, h.2⟩
